import Mathlib

/-!
Shallow embedding of the PulZ mission backend
(`src/openwebui-patch/pulz_backend.py` and `src/openwebui-patch/pulz_executors.py`)
together with proofs settling the specification claims about it.

Python strings are modelled as `String` (or `List Char` where byte-level
behaviour matters), Python ints as `Int`/`Nat`, Python floats as `ℚ`, and
fallible endpoints as `Except`-returning functions on an explicit record of
the relevant database tables.
-/

namespace PulZ

/-- Python `text.lower()`, modelled character by character (the keyword lists
matched against it are pure ASCII). -/
def lowerChars (l : List Char) : List Char := l.map Char.toLower

/-- Python substring test `kw in text` (both arguments already lowercased by
the callers in `pulz_backend.py`). -/
def strContains (text kw : List Char) : Bool := decide (kw <:+: text)

/-- The fixed heuristic keyword list `KEYWORDS` (pulz_backend.py lines 72-86). -/
def KEYWORDS : List String :=
  ["need", "looking for", "is there a tool", "generator", "template", "lease",
   "resume", "pdf", "proposal", "automation", "integrate", "web app", "tool"]

/-- The risk keyword families `RISK_KEYWORDS` (pulz_backend.py lines 88-92),
kept in the dict's insertion order. -/
def RISK_KEYWORDS : List (String × List String) :=
  [("legal", ["legal", "law", "attorney", "contract"]),
   ("medical", ["medical", "health", "clinic", "patient"]),
   ("financial", ["loan", "investment", "tax", "accounting"])]

/-- `_heuristic_score` (pulz_backend.py lines 660-662): count of keywords that
occur in the lowercased text. -/
def heuristicScore (text : String) : Nat :=
  let textLower := lowerChars text.toList
  KEYWORDS.countP (fun keyword => strContains textLower keyword.toList)

/-- `_categorize` (pulz_backend.py lines 665-673). -/
def categorize (text : String) : String :=
  let textLower := lowerChars text.toList
  if ["template", "pdf", "resume", "lease", "generator"].any
      (fun w => strContains textLower w.toList) then
    "Doc generator / template tool"
  else if ["automation", "integrate", "zapier", "api"].any
      (fun w => strContains textLower w.toList) then
    "Automation / integration request"
  else if ["app", "web", "saas", "tool"].any (fun w => strContains textLower w.toList) then
    "Small web app / micro SaaS"
  else
    "Not a lead / ignore"

/-- `_risk_flags` (pulz_backend.py lines 676-682): labels of the families with
at least one keyword occurring in the lowercased text, in family order. -/
def riskFlags (text : String) : List String :=
  let textLower := lowerChars text.toList
  (RISK_KEYWORDS.filter
    (fun fam => fam.2.any (fun keyword => strContains textLower keyword.toList))).map
    (fun fam => fam.1)

/-- Result record of `_estimate` (pulz_backend.py lines 685-710). -/
structure Estimate where
  feasibility : String
  estimated_build_time_minutes : Int
  suggested_price_range : String
  risk_flags : List String
deriving DecidableEq, Repr

/-- `_estimate` (pulz_backend.py lines 685-710).  Note the order of the three
feasibility assignments in the source: `HIGH`/`MED` first, then the `score <= 1`
override to `LOW`, then the risk-flag override to `MED`. -/
def estimate (text : String) (category : String) : Estimate :=
  let score : Int := (heuristicScore text : Int)
  let risk := riskFlags text
  let basePrice : Int × String :=
    if category = "Doc generator / template tool" then (240, "$600 - $1,500")
    else if category = "Automation / integration request" then (360, "$900 - $2,500")
    else if category = "Small web app / micro SaaS" then (480, "$1,200 - $3,500")
    else (180, "$400 - $900")
  let feasibility := if 2 ≤ score ∧ risk = [] then "HIGH" else "MED"
  let feasibility := if score ≤ 1 then "LOW" else feasibility
  let feasibility := if risk ≠ [] then "MED" else feasibility
  { feasibility := feasibility,
    estimated_build_time_minutes := basePrice.1 + max 0 (score - 2) * 60,
    suggested_price_range := basePrice.2,
    risk_flags := risk }

/-- Scoring record produced by `_score_signal` (pulz_backend.py lines 791-837). -/
structure Scored where
  category : String
  feasibility : String
  estimated_build_time_minutes : Int
  suggested_price_range : String
  risk_flags : List String
  recommended_next_action : String
  rationale : String
deriving DecidableEq, Repr

/-- The heuristic path of `_score_signal` (pulz_backend.py lines 791-837, with
`_ollama_classify` returning `None`, so no LLM merge happens): builds the
scored record with `recommended_next_action` set from the heuristic score and
then overridden to `"needs clarification"` whenever risk flags are present. -/
def scoreSignalHeuristic (title body_excerpt : String) : Scored :=
  let text := title ++ "\n" ++ body_excerpt
  let category := categorize text
  let est := estimate text category
  let recommended := if 2 ≤ heuristicScore text then "draft proposal" else "ignore"
  let scored : Scored :=
    { category := category,
      feasibility := est.feasibility,
      estimated_build_time_minutes := est.estimated_build_time_minutes,
      suggested_price_range := est.suggested_price_range,
      risk_flags := est.risk_flags,
      recommended_next_action := recommended,
      rationale := "keyword heuristic" }
  if est.risk_flags ≠ [] then { scored with recommended_next_action := "needs clarification" }
  else scored

/-- `asyncio.sleep(max(5, 60 / mission_state.rate_per_source_per_minute))` in
`_mission_loop` (pulz_backend.py line 936): the number of seconds slept between
connectors. -/
def missionSleepSeconds (rate : ℚ) : ℚ := max 5 (60 / rate)

/-! ### Proposal lifecycle endpoints (approve / reject / execute)

The sqlite tables touched by the three endpoints are modelled as lists of
rows inside a `Db` record.  Timestamps (`_now_iso`) are modelled as a `Nat`
clock, and the randomly generated ids (`uuid4`, time-salted `_hash_id`) as a
`fresh` counter drawn from the state. -/

/-- The valid execution lanes: the keys of `EXECUTORS`
(pulz_executors.py lines 317-322). -/
def EXECUTOR_LANES : List String := ["html", "pdf", "doc", "site"]

/-- A row of the `proposals` table. -/
structure ProposalRow where
  id : String
  signal_id : String
  status : String
  created_at : Nat
  updated_at : Nat
  data_json : String
  approved_at : Option Nat := none
  executing_at : Option Nat := none
  executed_at : Option Nat := none
  execution_mode : Option String := none
  mission_id : Option String := none
deriving DecidableEq, Repr

/-- A row of the `executions` table (the columns the claims are about). -/
structure ExecutionRow where
  id : Nat
  proposal_id : String
  mission_id : Option String
  lane : String
  status : String
  started_at : Nat
  finished_at : Option Nat := none
  approved_by : Option String := none
  inputs : String := ""
deriving DecidableEq, Repr

/-- A row of the `artifacts` table (the columns the claims are about). -/
structure ArtifactRow where
  id : Nat
  proposal_id : String
  created_at : Nat
  data_json : String
  execution_id : Option Nat := none
  kind : Option String := none
deriving DecidableEq, Repr

/-- A row of the `telemetry_events` table.  The JSON payload is flattened to
the two fields `_telemetry_summary` reads: `payload.get("tokens", 0)` and
`payload.get("provider")`. -/
structure TelemetryEventRow where
  ts : String := ""
  type : String
  mission_id : Option String := none
  proposal_id : Option String := none
  execution_id : Option Nat := none
  tokens : Int := 0
  provider : Option String := none
deriving DecidableEq, Repr

/-- The state visible to the lifecycle endpoints. -/
structure Db where
  proposals : List ProposalRow
  executions : List ExecutionRow
  artifacts : List ArtifactRow
  telemetry : List TelemetryEventRow
  execution_blocked : Bool
  now : Nat
  fresh : Nat
deriving DecidableEq, Repr

/-- A FastAPI `HTTPException(status_code, detail)`. -/
structure HTTPError where
  status_code : Nat
  detail : String
deriving DecidableEq, Repr

/-- `SELECT ... FROM proposals WHERE id = ?` returning at most one row. -/
def findProposal (db : Db) (pid : String) : Option ProposalRow :=
  db.proposals.find? (fun r => r.id == pid)

/-- `_update_proposal_status` (pulz_backend.py lines 378-390): sets `status`
and `updated_at` on every row matching the id, stamping `approved_at` /
`executing_at` / `executed_at` for the corresponding statuses.  An id that
matches no row updates nothing. -/
def updateProposalStatus (rows : List ProposalRow) (pid status : String) (t : Nat) :
    List ProposalRow :=
  rows.map fun r =>
    if r.id == pid then
      { r with
        status := status,
        updated_at := t,
        approved_at := if status == "approved" then some t else r.approved_at,
        executing_at := if status == "executing" then some t else r.executing_at,
        executed_at :=
          if ["executed", "failed", "cancelled"].contains status then some t
          else r.executed_at }
    else r

/-- `_record_telemetry` (pulz_backend.py lines 288-312): appends one event row. -/
def recordTelemetry (db : Db) (eventType : String) (mid : Option String)
    (pid : Option String) (eid : Option Nat) : Db :=
  { db with
    telemetry := db.telemetry ++
      [{ type := eventType, mission_id := mid, proposal_id := pid, execution_id := eid }] }

/-- `_insert_artifact` (pulz_backend.py lines 393-423): inserts one artifact
row and returns its id. -/
def insertArtifact (db : Db) (pid : String) (dataJson : String) (execId : Option Nat)
    (kind : Option String) : Nat × Db :=
  let aid := db.fresh
  (aid,
   { db with
     artifacts := db.artifacts ++
       [{ id := aid, proposal_id := pid, created_at := db.now, data_json := dataJson,
          execution_id := execId, kind := kind }],
     fresh := db.fresh + 1 })

/-- `_insert_execution` (pulz_backend.py lines 426-457): inserts one execution
row with the given status, `started_at = now` and no `finished_at`, returning
the fresh id. -/
def insertExecution (db : Db) (pid : String) (mid : Option String) (lane status : String)
    (approvedBy : Option String) (inputs : String) : Nat × Db :=
  let eid := db.fresh
  (eid,
   { db with
     executions := db.executions ++
       [{ id := eid, proposal_id := pid, mission_id := mid, lane := lane, status := status,
          started_at := db.now, finished_at := none, approved_by := approvedBy,
          inputs := inputs }],
     fresh := db.fresh + 1 })

/-- `_start_execution_task` (pulz_backend.py lines 1267-1306): 409 when the
mission kill switch is set, otherwise inserts a `queued` execution and records
an `execution_queued` telemetry event.  (`_emit_execution_event` publishes the
event but does not add a second telemetry row for `execution_queued`; the
spawned `_run_execution` worker task is modelled separately as the execution
status machine.) -/
def startExecutionTask (db : Db) (pid : String) (inputs : String) (lane : String)
    (mid : Option String) (approvedBy : Option String) : Except HTTPError (Nat × Db) :=
  if db.execution_blocked then
    .error ⟨409, "Execution blocked by mission kill switch"⟩
  else
    let r := insertExecution db pid mid lane "queued" approvedBy inputs
    .ok (r.1, recordTelemetry r.2 "execution_queued" mid (some pid) (some r.1))

/-- Response of the approve endpoint. -/
structure ApproveResponse where
  status : String
  artifact_id : Nat
  execution_id : Option Nat
deriving DecidableEq, Repr

/-- `approve` (pulz_backend.py lines 1410-1442): 404 when the proposal does not
exist; otherwise — with no check of the current status — writes `approved`,
inserts an inline artifact of kind `json`, records `proposal_approved`
telemetry, and auto-enqueues an `html` execution when
`execution_mode = auto_after_approval` (falling back to
`execution_id = None` when the enqueue raises). -/
def approve (db : Db) (pid : String) : Except HTTPError (ApproveResponse × Db) :=
  match findProposal db pid with
  | none => .error ⟨404, "Proposal not found"⟩
  | some row =>
    let db1 := { db with proposals := updateProposalStatus db.proposals pid "approved" db.now }
    let ins := insertArtifact db1 pid row.data_json none (some "json")
    let db2 := recordTelemetry ins.2 "proposal_approved" row.mission_id (some pid) none
    if row.execution_mode.getD "manual" == "auto_after_approval" then
      match startExecutionTask db2 pid row.data_json "html" row.mission_id (some "operator") with
      | .ok (eid, db3) =>
        .ok ({ status := "approved", artifact_id := ins.1, execution_id := some eid }, db3)
      | .error _ =>
        .ok ({ status := "approved", artifact_id := ins.1, execution_id := none }, db2)
    else
      .ok ({ status := "approved", artifact_id := ins.1, execution_id := none }, db2)

/-- Response of the reject endpoint. -/
structure RejectResponse where
  status : String
deriving DecidableEq, Repr

/-- `reject` (pulz_backend.py lines 1444-1447): unconditionally runs
`_update_proposal_status(proposal_id, "cancelled")` and returns
`{"status": "cancelled"}`; there is no existence check and no error path. -/
def reject (db : Db) (pid : String) : RejectResponse × Db :=
  ({ status := "cancelled" },
   { db with proposals := updateProposalStatus db.proposals pid "cancelled" db.now })

/-- Response of the execute endpoint. -/
structure ExecuteResponse where
  status : String
  execution_id : Nat
deriving DecidableEq, Repr

/-- `execute` (pulz_backend.py lines 1449-1473): 400 on an invalid lane, 404 on
a missing proposal, 409 unless the status is `approved` or (`executed` with
`allow_rerun`), otherwise enqueues a new execution via
`_start_execution_task`. -/
def execute (db : Db) (pid : String) (lane : String) (allow_rerun : Bool) :
    Except HTTPError (ExecuteResponse × Db) :=
  if ¬ EXECUTOR_LANES.contains lane then .error ⟨400, "Invalid execution lane"⟩
  else
    match findProposal db pid with
    | none => .error ⟨404, "Proposal not found"⟩
    | some row =>
      if row.status ≠ "approved" ∧ ¬(row.status = "executed" ∧ allow_rerun = true) then
        .error ⟨409, "Proposal not approved for execution"⟩
      else
        match startExecutionTask db pid row.data_json lane row.mission_id (some "operator") with
        | .ok (eid, db1) => .ok ({ status := "queued", execution_id := eid }, db1)
        | .error e => .error e

/-! ### Signal ingestion (`_process_signal` / `_insert_signal`) -/

/-- The `Signal` dataclass (pulz_backend.py lines 95-105); the opaque `raw`
mapping is carried as its JSON text. -/
structure Signal where
  id : String
  source : String
  url : String
  title : String
  body_excerpt : String
  author : String
  created_at : String
  raw_json : String := "{}"
  contact_hint : Option String := none
deriving DecidableEq, Repr

/-- A row of the `signals` table. -/
structure SignalRow where
  id : String
  source : String
  url : String
  title : String
  body_excerpt : String
  author : String
  created_at : String
  raw_json : String
  scored : Scored
  proposal_id : Option Nat
  status : String
  inserted_at : Nat
deriving DecidableEq, Repr

/-- The `contact_method` dict built by `_draft_proposal`
(pulz_backend.py lines 763-767), with one optional slot per key that any of
the three shapes can set. -/
structure ContactMethod where
  channel : String
  handle : Option String := none
  link : Option String := none
  permalink : Option String := none
  author : Option String := none
  url : Option String := none
deriving DecidableEq, Repr

/-- The proposal `data_json` dict built by `_draft_proposal`
(pulz_backend.py lines 776-788). -/
structure ProposalData where
  signal_id : String
  source : String
  problem_summary : String
  solution_options : List String
  suggested_price_range : String
  estimated_build_time_minutes : Int
  message_template : String
  contact_method : ContactMethod
deriving DecidableEq, Repr

/-- `_estimate_tokens` (pulz_backend.py lines 274-275): `max(1, int(len(text) / 4))`. -/
def estimateTokens (text : String) : Nat := max 1 (text.length / 4)

/-- `_draft_proposal` (pulz_backend.py lines 762-788). -/
def draftProposal (signal : Signal) (scored : Scored) : ProposalData :=
  let contact : ContactMethod :=
    if signal.source.startsWith "reddit:" then
      { channel := "reddit", handle := some signal.author, permalink := some signal.url }
    else if signal.source.startsWith "rss:" then
      { channel := "rss", author := some signal.author, url := some signal.url }
    else
      { channel := "unknown", handle := some signal.author, link := some signal.url }
  let message :=
    "Hi there! I saw your post and can help with a fast-turnaround solution.\n\n"
      ++ "Summary: " ++ signal.title ++ "\n"
      ++ "Approach: " ++ scored.category ++ " with a focused scope and quick delivery.\n"
      ++ "Estimated delivery: " ++ toString scored.estimated_build_time_minutes
      ++ " minutes of build time.\n"
      ++ "Price range: " ++ scored.suggested_price_range ++ ".\n\n"
      ++ "If helpful, I can outline a short scope and timeline based on your exact requirements."
  { signal_id := signal.id,
    source := signal.source,
    problem_summary := if signal.body_excerpt ≠ "" then signal.body_excerpt else signal.title,
    solution_options :=
      ["Lean MVP with core workflow and export",
       "Enhanced version with templates + automation hooks"],
    suggested_price_range := scored.suggested_price_range,
    estimated_build_time_minutes := scored.estimated_build_time_minutes,
    message_template := message,
    contact_method := contact }

/-- A row of the `proposals` table as created by `_insert_proposal` during
signal processing (ids are drawn from the state's `fresh` counter, standing
for the time-salted `_hash_id`). -/
structure ProcProposalRow where
  id : Nat
  signal_id : String
  status : String
  created_at : Nat
  updated_at : Nat
  data : ProposalData
  execution_mode : String
  mission_id : Option String
deriving DecidableEq, Repr

/-- The state read and written by `_process_signal`: the `signals`,
`proposals` and `telemetry_events` tables plus the `mission_state` fields it
touches. -/
structure ProcState where
  signals : List SignalRow
  proposals : List ProcProposalRow
  telemetry : List TelemetryEventRow
  items_processed : Nat
  authority_mode : String
  current_mission_id : Option String
  now : Nat
  fresh : Nat
deriving DecidableEq, Repr

/-- `INSERT OR REPLACE INTO signals` (pulz_backend.py lines 322-345) at the
row level: the conflicting row (same primary key) is deleted and the new row
inserted. -/
def insertSignalRows (rows : List SignalRow) (row : SignalRow) : List SignalRow :=
  rows.filter (fun r => r.id != row.id) ++ [row]

/-- `_insert_signal` (pulz_backend.py lines 322-345): builds the row —
status `queued` when a proposal is attached, else the recommended action —
and INSERT-OR-REPLACEs it. -/
def insertSignal (st : ProcState) (signal : Signal) (scored : Scored)
    (proposalId : Option Nat) : ProcState :=
  { st with
    signals := insertSignalRows st.signals
      { id := signal.id, source := signal.source, url := signal.url, title := signal.title,
        body_excerpt := signal.body_excerpt, author := signal.author,
        created_at := signal.created_at, raw_json := signal.raw_json, scored := scored,
        proposal_id := proposalId,
        status := match proposalId with
          | some _ => "queued"
          | none => scored.recommended_next_action,
        inserted_at := st.now } }

/-- `_insert_proposal` (pulz_backend.py lines 348-375). -/
def insertProcProposal (st : ProcState) (signalId : String) (data : ProposalData)
    (status : String) (missionId : Option String) (executionMode : String) :
    Nat × ProcState :=
  let pid := st.fresh
  (pid,
   { st with
     proposals := st.proposals ++
       [{ id := pid, signal_id := signalId, status := status, created_at := st.now,
          updated_at := st.now, data := data, execution_mode := executionMode,
          mission_id := missionId }],
     fresh := st.fresh + 1 })

/-- Event dict returned by `_process_signal` (and published as a `signal`
event by the mission loop); `proposal`/`proposal_id` are set only when a
proposal was drafted. -/
structure SignalEvent where
  signal : Signal
  scoring : Scored
  proposal : Option ProposalData
  status : String
  proposal_id : Option Nat
deriving DecidableEq, Repr

/-- `_process_signal` (pulz_backend.py lines 840-883) on the heuristic scoring
path: skip entirely when the signal id already exists; otherwise score the
signal (which records a `tokens_used` estimate event), record a
`connector_item` event, draft and insert a proposal when the recommendation is
`draft proposal` and authority allows (recording `proposal_created`), insert
the signal row, bump `items_processed` and return the feed event. -/
def processSignal (st : ProcState) (signal : Signal) : Option SignalEvent × ProcState :=
  if st.signals.any (fun r => r.id == signal.id) then (none, st)
  else
    let text := signal.title ++ "\n" ++ signal.body_excerpt
    let scored := scoreSignalHeuristic signal.title signal.body_excerpt
    let st1 : ProcState :=
      { st with telemetry := st.telemetry ++
          [{ type := "tokens_used", mission_id := st.current_mission_id,
             tokens := (estimateTokens text : Int), provider := some "estimate" }] }
    let st2 : ProcState :=
      { st1 with telemetry := st1.telemetry ++
          [{ type := "connector_item", mission_id := st1.current_mission_id }] }
    let draftRes : Option (Nat × ProposalData × String) × ProcState :=
      if scored.recommended_next_action = "draft proposal" ∧ st.authority_mode ≠ "scan_only" then
        let data := draftProposal signal scored
        let proposalStatus := if st.authority_mode = "draft_only" then "draft" else "queued"
        let executionMode :=
          if st.authority_mode = "execute_after_approval" then "auto_after_approval"
          else "manual"
        let r := insertProcProposal st2 signal.id data proposalStatus
          st2.current_mission_id executionMode
        (some (r.1, data, proposalStatus),
         { r.2 with telemetry := r.2.telemetry ++
             [{ type := "proposal_created", mission_id := r.2.current_mission_id,
                proposal_id := some (toString r.1) }] })
      else (none, st2)
    let st3 := insertSignal draftRes.2 signal scored (draftRes.1.map (fun x => x.1))
    let st4 := { st3 with items_processed := st3.items_processed + 1 }
    let ev : SignalEvent :=
      match draftRes.1 with
      | some (pid, data, proposalStatus) =>
        { signal := signal, scoring := scored, proposal := some data,
          status := proposalStatus, proposal_id := some pid }
      | none =>
        { signal := signal, scoring := scored, proposal := none,
          status := scored.recommended_next_action, proposal_id := none }
    (some ev, st4)

/-- An empty processing state under the default authority mode, used as
concrete input in witnesses. -/
def emptyProcState : ProcState :=
  { signals := [], proposals := [], telemetry := [], items_processed := 0,
    authority_mode := "auto_draft_queue", current_mission_id := some "m1",
    now := 0, fresh := 0 }

/-- A concrete signal used in witnesses. -/
def sampleSignal : Signal :=
  { id := "sig1", source := "reddit:smallbusiness", url := "https://example.com/post",
    title := "need a pdf tool", body_excerpt := "", author := "author",
    created_at := "2026-01-01T00:00:00Z" }

/-! ### Execution status machine (`_insert_execution` / `_update_execution_status`) -/

/-- The execution statuses that `_update_execution_status` stamps with
`finished_at` (pulz_backend.py line 462). -/
def EXEC_TERMINAL : List String := ["succeeded", "failed", "cancelled"]

/-- The status / `finished_at` cells of one `executions` row. -/
structure ExecStatusRow where
  status : String
  finished_at : Option Nat
deriving DecidableEq, Repr

/-- `_insert_execution` at the status level (pulz_backend.py lines 426-457):
the new row carries the given status and no `finished_at` (that column is not
in the INSERT's column list).  Its only caller, `_start_execution_task`
(line 1281), passes status `"queued"`. -/
def insertExecutionStatus (status : String) : ExecStatusRow :=
  { status := status, finished_at := none }

/-- `_update_execution_status` (pulz_backend.py lines 460-470): writes the new
status, stamping `finished_at = now` exactly when the new status is terminal;
`finished_at` is otherwise left untouched. -/
def updateExecutionStatus (row : ExecStatusRow) (status : String) (t : Nat) : ExecStatusRow :=
  { status := status,
    finished_at := if EXEC_TERMINAL.contains status then some t else row.finished_at }

/-- A sequence of status updates folded over a row. -/
def applyExecUpdates (row : ExecStatusRow) (ops : List (String × Nat)) : ExecStatusRow :=
  ops.foldl (fun r op => updateExecutionStatus r op.1 op.2) row

/-- The update sequences the backend performs on one execution row: a
non-terminal status is never written over a terminal one.  (`_run_execution`
writes `running` once at its start, before any terminal write; the cancel
endpoint returns early when the row is already terminal, lines 1480-1481; and
after a task's own terminal write in lines 1254-1264 no further write occurs.) -/
def execGuardOk (row : ExecStatusRow) : List (String × Nat) → Bool
  | [] => true
  | op :: rest =>
    (!(EXEC_TERMINAL.contains row.status) || EXEC_TERMINAL.contains op.1) &&
      execGuardOk (updateExecutionStatus row op.1 op.2) rest

/-- The invariant of C8: `finished_at` is set exactly on terminal statuses. -/
def finishedInv (row : ExecStatusRow) : Prop :=
  row.finished_at.isSome = EXEC_TERMINAL.contains row.status

/-! ### Telemetry summary (`_telemetry_summary`) -/

/-- `COST_PER_1M_TOKENS_USD.get(provider, COST_PER_1M_TOKENS_USD.get("default", 0.0))`
(pulz_backend.py line 590), with the config dict as an association list. -/
def costRate (cfg : List (String × ℚ)) (provider : String) : ℚ :=
  match cfg.lookup provider with
  | some r => r
  | none => (cfg.lookup "default").getD 0

/-- `payload.get("provider") or "default"` (pulz_backend.py line 589): both a
missing provider and the falsy empty string fall back to `"default"`. -/
def providerOf (row : TelemetryEventRow) : String :=
  match row.provider with
  | none => "default"
  | some p => if p = "" then "default" else p

/-- The hour bucket `row["ts"][:13] + ":00:00Z"` (pulz_backend.py line 593). -/
def hourBucket (ts : String) : String :=
  String.mk (ts.toList.take 13) ++ ":00:00Z"

/-- `tokens_over_time[hour] = tokens_over_time.get(hour, 0) + tokens`
(pulz_backend.py line 594) over an insertion-ordered association list. -/
def bumpBucket (d : List (String × Int)) (key : String) (tokens : Int) :
    List (String × Int) :=
  if (d.lookup key).isSome then
    d.map (fun kv => if kv.1 = key then (kv.1, kv.2 + tokens) else kv)
  else d ++ [(key, tokens)]

/-- The body of the token loop in `_telemetry_summary`
(pulz_backend.py lines 586-594): add the row's tokens to `total_tokens`, add
`(tokens / 1_000_000) * rate(provider)` to `total_cost_usd`, and bump the
row's hour bucket. -/
def tokenStep (cfg : List (String × ℚ)) (acc : Int × ℚ × List (String × Int))
    (row : TelemetryEventRow) : Int × ℚ × List (String × Int) :=
  let tokens := row.tokens
  let rate := costRate cfg (providerOf row)
  (acc.1 + tokens, acc.2.1 + ((tokens : ℚ) / 1000000) * rate,
    bumpBucket acc.2.2 (hourBucket row.ts) tokens)

/-- The token loop of `_telemetry_summary` over the `tokens_used` rows. -/
def tokenFold (cfg : List (String × ℚ)) (rows : List TelemetryEventRow) :
    Int × ℚ × List (String × Int) :=
  rows.foldl (tokenStep cfg) (0, 0, [])

/-- The fields of the `_telemetry_summary` response
(pulz_backend.py lines 560-641) the claims are about, over exact rationals.
The `round(x, 4)` applied to the floats in the JSON response, the final
sorting of `tokens_over_time` and the `roi_by_source` block derived from
`cost_per_signal` are response formatting and are not modelled. -/
structure TelemetrySummary where
  total_tokens : Int
  total_cost_usd : ℚ
  tokens_over_time : List (String × Int)
  signal_count : Nat
  proposal_count : Nat
  execution_count : Nat
  cost_per_signal : ℚ
  cost_per_proposal : ℚ
  cost_per_execution : ℚ
deriving DecidableEq, Repr

/-- `_telemetry_summary` (pulz_backend.py lines 560-641): the token totals are
folded over the `tokens_used` events, the three counts are the numbers of
`connector_item` / `proposal_created` / `execution_started` events, and each
per-unit cost is `total_cost_usd / count if count else 0`. -/
def telemetrySummary (events : List TelemetryEventRow) (cfg : List (String × ℚ)) :
    TelemetrySummary :=
  let tokenRows := events.filter (fun e => e.type == "tokens_used")
  let signalCount := (events.filter (fun e => e.type == "connector_item")).length
  let proposalCount := (events.filter (fun e => e.type == "proposal_created")).length
  let executionCount := (events.filter (fun e => e.type == "execution_started")).length
  let acc := tokenFold cfg tokenRows
  { total_tokens := acc.1,
    total_cost_usd := acc.2.1,
    tokens_over_time := acc.2.2,
    signal_count := signalCount,
    proposal_count := proposalCount,
    execution_count := executionCount,
    cost_per_signal := if signalCount = 0 then 0 else acc.2.1 / signalCount,
    cost_per_proposal := if proposalCount = 0 then 0 else acc.2.1 / proposalCount,
    cost_per_execution := if executionCount = 0 then 0 else acc.2.1 / executionCount }

/-! ### `_simple_pdf_bytes` (pulz_executors.py lines 61-100)

The function wraps its text with Python's `textwrap.wrap(text, 80)` (default
options), renders at most 52 lines into a minimal PDF 1.4 string, and encodes
it as Latin-1.  The wrapper is modelled from the CPython `textwrap` source
(`TextWrapper` with its defaults: `expand_tabs`, `replace_whitespace`,
`drop_whitespace`, `break_long_words`); hyphen/em-dash word splitting
(`break_on_hyphens`) is not modelled — it only moves split points between
words that greedy refilling rejoins at width 80, and no theorem below depends
on hyphenated input. -/

/-- One decimal digit character (`str(n)` digit). -/
def decDigit (n : Nat) : Char :=
  if n = 0 then '0' else if n = 1 then '1' else if n = 2 then '2' else if n = 3 then '3'
  else if n = 4 then '4' else if n = 5 then '5' else if n = 6 then '6' else if n = 7 then '7'
  else if n = 8 then '8' else '9'

/-- Decimal rendering of a natural number (Python `str(n)` / `f"{n}"`),
fuel-recursive so that it reduces in the kernel. -/
def natToDecGo : Nat → Nat → List Char → List Char
  | 0, _, acc => acc
  | fuel + 1, n, acc =>
    let d := decDigit (n % 10)
    if n < 10 then d :: acc else natToDecGo fuel (n / 10) (d :: acc)

/-- Python `f"{n}"` for a natural number. -/
def natToDec (n : Nat) : List Char := natToDecGo (n + 1) n []

/-- Python `f"{pos:010}"`: left-pad the decimal digits with zeros to width 10. -/
def padTo10 (digits : List Char) : List Char :=
  List.replicate (10 - digits.length) '0' ++ digits

/-- Python `str.expandtabs(8)` (applied by `textwrap._munge_whitespace` with
`expand_tabs=True`): a tab advances the column to the next multiple of 8, a
newline or carriage return resets it. -/
def expandTabsGo : Nat → List Char → List Char
  | _, [] => []
  | col, c :: cs =>
    if c = '\t' then
      List.replicate (8 - col % 8) ' ' ++ expandTabsGo (col + (8 - col % 8)) cs
    else if c = '\n' ∨ c = '\r' then c :: expandTabsGo 0 cs
    else c :: expandTabsGo (col + 1) cs

/-- `textwrap`'s `unicode_whitespace_trans` (with `replace_whitespace=True`):
each character of `textwrap._whitespace` (`'\t\n\x0b\x0c\r '`) becomes a
space. -/
def translateWs (c : Char) : Char :=
  if c = '\t' ∨ c = '\n' ∨ c = '\x0B' ∨ c = '\x0C' ∨ c = '\r' ∨ c = ' ' then ' ' else c

/-- `textwrap.TextWrapper._munge_whitespace`: expand tabs, then translate the
ASCII whitespace characters to spaces. -/
def mungeWhitespace (text : List Char) : List Char :=
  (expandTabsGo 0 text).map translateWs

/-- `TextWrapper._split` on munged text: maximal runs of spaces alternate with
maximal runs of non-spaces (`textwrap`'s word separator class is exactly
`[\t\n\x0b\x0c\r ]`, which after munging is the single character `' '`). -/
def splitChunksGo : Nat → List Char → List (List Char)
  | 0, _ => []
  | _, [] => []
  | fuel + 1, c :: cs =>
    ((c :: cs).takeWhile (fun x => (x == ' ') == (c == ' '))) ::
      splitChunksGo fuel ((c :: cs).dropWhile (fun x => (x == ' ') == (c == ' ')))

/-- `TextWrapper._split` of the munged text into chunks. -/
def splitChunks (l : List Char) : List (List Char) := splitChunksGo l.length l

/-- The inner loop of `TextWrapper._wrap_chunks`: greedily move chunks into
the current line while the accumulated length stays within the width;
returns the line chunks, their total length, and the remaining chunks. -/
def fillLine (width : Nat) : Nat → List (List Char) → List (List Char) × Nat × List (List Char)
  | curLen, [] => ([], curLen, [])
  | curLen, ch :: rest =>
    if curLen + ch.length ≤ width then
      let r := fillLine width (curLen + ch.length) rest
      (ch :: r.1, r.2.1, r.2.2)
    else ([], curLen, ch :: rest)

/-- Python `chunk.strip() == ''`: every character is `str.strip` whitespace
(the Unicode whitespace set of CPython's `Py_UNICODE_ISSPACE`). -/
def pyIsSpace (c : Char) : Bool :=
  let n := c.toNat
  (decide (9 ≤ n) && decide (n ≤ 13)) || (decide (28 ≤ n) && decide (n ≤ 31)) ||
    n == 32 || n == 133 || n == 160 || n == 5760 ||
    (decide (8192 ≤ n) && decide (n ≤ 8202)) || n == 8232 || n == 8233 || n == 8239 ||
    n == 8287 || n == 12288

/-- A chunk that `drop_whitespace` removes: `chunk.strip() == ''`. -/
def isSpaceRun (chunk : List Char) : Bool := chunk.all pyIsSpace

/-- `del chunks[-1]` for a leading whitespace chunk — only once a line has
already been emitted (`... and lines` in `_wrap_chunks`). -/
def dropLeadingWs (hasLines : Bool) (chunks : List (List Char)) : List (List Char) :=
  match chunks with
  | ch :: rest => if hasLines && isSpaceRun ch then rest else chunks
  | [] => chunks

/-- `TextWrapper._handle_long_word` with `break_long_words=True`: when the
next chunk is longer than the width, break off `width - cur_len` characters
into the current line and leave the rest as the next chunk. -/
def handleLongWord (width curLen : Nat) (curLine rem : List (List Char)) :
    List (List Char) × List (List Char) :=
  match rem with
  | ch :: rest =>
    if width < ch.length then
      (curLine ++ [ch.take (width - curLen)], ch.drop (width - curLen) :: rest)
    else (curLine, rem)
  | [] => (curLine, [])

/-- Drop a trailing whitespace chunk from the line (`drop_whitespace`). -/
def dropTrailingWs (curLine : List (List Char)) : List (List Char) :=
  match curLine.getLast? with
  | some last => if isSpaceRun last then curLine.dropLast else curLine
  | none => curLine

/-- The outer loop of `TextWrapper._wrap_chunks`, fuel-recursive: per
iteration drop a leading whitespace chunk (after the first line), greedily
fill a line, break a too-long word, drop trailing whitespace, and emit the
joined line when non-empty. -/
def wrapGo (width : Nat) : Nat → Bool → List (List Char) → List (List Char)
  | 0, _, _ => []
  | _, _, [] => []
  | fuel + 1, hasLines, chunks =>
    let chunks1 := dropLeadingWs hasLines chunks
    let fl := fillLine width 0 chunks1
    let hl := handleLongWord width fl.2.1 fl.1 fl.2.2
    let curLine := dropTrailingWs hl.1
    if curLine.isEmpty then wrapGo width fuel hasLines hl.2
    else curLine.flatten :: wrapGo width fuel true hl.2

/-- `textwrap.wrap(text, 80)` with default options.  The fuel bound
`2 · length + 4` dominates the loop's iteration count: every iteration
consumes a chunk or splits 80 characters off a long word. -/
def textwrapWrap (text : List Char) : List (List Char) :=
  let munged := mungeWhitespace text
  wrapGo 80 (2 * munged.length + 4) false (splitChunks munged)

/-- Python `str.encode("latin-1")`: succeeds exactly when every character's
code point is at most 255, yielding one byte per character; otherwise a
`UnicodeEncodeError` is raised (`none`). -/
def latin1Encode (l : List Char) : Option (List Nat) :=
  if l.all (fun c => c.toNat ≤ 255) then some (l.map (fun c => c.toNat)) else none

/-- Python `"\n".join(lines)`. -/
def joinLines : List (List Char) → List Char
  | [] => []
  | [l] => l
  | l :: ls => l ++ '\n' :: joinLines ls

/-- The content-line loop of `_simple_pdf_bytes` (pulz_executors.py lines
63-69): each wrapped line becomes `"1 0 0 1 50 {y} Tm ({line}) Tj"`, `y`
starts at 770 and decreases by 14, and the loop breaks once `y` falls below
50 — so at most 52 lines are ever rendered. -/
def contentLines : Nat → List (List Char) → List (List Char)
  | _, [] => []
  | y, line :: rest =>
    let cl := "1 0 0 1 50 ".toList ++ natToDec y ++ " Tm (".toList ++ line ++ ") Tj".toList
    if y - 14 < 50 then [cl] else cl :: contentLines (y - 14) rest

/-- The object-serialisation loop (pulz_executors.py lines 89-91):
appends each object plus a newline and records its byte offset. -/
def buildObjects : List Char → List (List Char) → List Char × List Nat
  | pdf, [] => (pdf, [])
  | pdf, obj :: rest =>
    let pos := pdf.length
    let r := buildObjects (pdf ++ obj ++ ['\n']) rest
    (r.1, pos :: r.2)

/-- The full PDF string assembled by `_simple_pdf_bytes`
(pulz_executors.py lines 61-99), before the final Latin-1 encode. -/
def simplePdfChars (text : List Char) : List Char :=
  let lines := textwrapWrap text
  let contentStream := joinLines (contentLines 770 lines)
  let content := "BT\n/F1 12 Tf\n".toList ++ contentStream ++ "\nET".toList
  let objects : List (List Char) :=
    ["1 0 obj << /Type /Catalog /Pages 2 0 R >> endobj".toList,
     "2 0 obj << /Type /Pages /Kids [3 0 R] /Count 1 >> endobj".toList,
     ("3 0 obj << /Type /Page /Parent 2 0 R /MediaBox [0 0 612 792] " ++
      "/Contents 4 0 R /Resources << /Font << /F1 5 0 R >> >> >> endobj").toList,
     "4 0 obj << /Length ".toList ++ natToDec content.length ++ " >> stream\n".toList ++
       content ++ "\nendstream endobj".toList,
     "5 0 obj << /Type /Font /Subtype /Type1 /BaseFont /Helvetica >> endobj".toList]
  let bo := buildObjects "%PDF-1.4\n".toList objects
  let xrefStart := bo.1.length
  bo.1 ++ "xref\n0 6\n0000000000 65535 f \n".toList ++
    (bo.2.map (fun pos => padTo10 (natToDec pos) ++ " 00000 n \n".toList)).flatten ++
    "trailer << /Size 6 /Root 1 0 R >>\nstartxref\n".toList ++
    natToDec xrefStart ++ "\n%%EOF".toList

/-- `_simple_pdf_bytes(text)` (pulz_executors.py lines 61-100): the PDF string
Latin-1 encoded; `none` models the `UnicodeEncodeError` the pdf and doc lanes
propagate as execution failure. -/
def simplePdfBytes (text : List Char) : Option (List Nat) :=
  latin1Encode (simplePdfChars text)

/-- A concrete event log used in witnesses: one `tokens_used` event of 100
tokens and one `connector_item` event. -/
def sampleEvents : List TelemetryEventRow :=
  [{ ts := "2026-01-01T10:15:00Z", type := "tokens_used", tokens := 100,
     provider := some "estimate" },
   { ts := "2026-01-01T10:16:00Z", type := "connector_item" }]

/-- A concrete cost config used in witnesses (the default `{"default": 2.0}`). -/
def sampleCfg : List (String × ℚ) := [("default", 2)]

/-- A one-proposal database used as concrete input in counterexamples and
witnesses: a single proposal `p1` with the given status and execution mode. -/
def testDb (status : String) (mode : Option String) : Db :=
  { proposals :=
      [{ id := "p1", signal_id := "s1", status := status, created_at := 0, updated_at := 0,
         data_json := "{}", execution_mode := mode, mission_id := some "m1" }],
    executions := [], artifacts := [], telemetry := [],
    execution_blocked := false, now := 1, fresh := 0 }

/-! ### Theorems -/

/-- The `risk_flags` field of `_estimate`'s result is `_risk_flags(text)`. -/
theorem estimate_risk_flags (t c : String) : (estimate t c).risk_flags = riskFlags t := rfl

/-- Recommended action of the heuristic scoring path in closed form. -/
theorem scoreSignalHeuristic_recommended (title body : String) :
    (scoreSignalHeuristic title body).recommended_next_action =
      (if riskFlags (title ++ "\n" ++ body) ≠ [] then "needs clarification"
       else if 2 ≤ heuristicScore (title ++ "\n" ++ body) then "draft proposal"
       else "ignore") := by
  simp only [scoreSignalHeuristic, estimate_risk_flags]
  by_cases hr : riskFlags (title ++ "\n" ++ body) = [] <;>
    by_cases hs : 2 ≤ heuristicScore (title ++ "\n" ++ body) <;>
    simp [hr, hs]

/-- C4 counterexample: at rate `1/2` (< 1) the mission loop sleeps
`max(5, 60 / 0.5) = 120` seconds, not the 60 seconds the claim states. -/
theorem C4_counterexample :
    missionSleepSeconds (1 / 2) = 120 ∧ missionSleepSeconds (1 / 2) ≠ 60 := by
  constructor <;> norm_num [missionSleepSeconds]

/-- C4 (amended): the sleep between connectors is `max(5, 60 / r)` for every
rate `r > 0`; for `r < 1` this equals `60 / r`, which strictly exceeds 60
seconds (the throttle is unbounded as `r` approaches 0, contrary to the
claim's "exactly 60 seconds"); for `r ≥ 1` it is `max(5, 60 / r)` as claimed. -/
theorem C4_sleep_amended (r : ℚ) (h : 0 < r) :
    missionSleepSeconds r = max 5 (60 / r) ∧
    (r < 1 → missionSleepSeconds r = 60 / r ∧ 60 < missionSleepSeconds r) := by
  refine ⟨rfl, fun hr => ?_⟩
  have h60 : (60 : ℚ) < 60 / r := by
    rw [lt_div_iff₀ h]; nlinarith
  have hmax : missionSleepSeconds r = 60 / r := by
    unfold missionSleepSeconds
    exact max_eq_right (by linarith)
  exact ⟨hmax, hmax ▸ h60⟩

/-- Witness for C4 at the concrete rate `1/2`. -/
theorem C4_sleep_amended_witness :
    missionSleepSeconds (1 / 2) = max 5 (60 / (1 / 2)) ∧
    ((1 : ℚ) / 2 < 1 →
      missionSleepSeconds (1 / 2) = 60 / (1 / 2) ∧ 60 < missionSleepSeconds (1 / 2)) :=
  C4_sleep_amended (1 / 2) (by norm_num)

/-- C5 (confirmed): on the heuristic path (no LLM refinement) the recommended
next action is `"needs clarification"` whenever a risk-keyword family matches
(regardless of the score), `"draft proposal"` when the keyword score is at
least 2 and no risk family matches, and `"ignore"` otherwise.  (The spec's
enum names `needs_clarification` / `draft_proposal` denote the literal code
strings `"needs clarification"` / `"draft proposal"`.) -/
theorem C5_recommended_action (title body : String) :
    (riskFlags (title ++ "\n" ++ body) ≠ [] →
      (scoreSignalHeuristic title body).recommended_next_action = "needs clarification") ∧
    (riskFlags (title ++ "\n" ++ body) = [] → 2 ≤ heuristicScore (title ++ "\n" ++ body) →
      (scoreSignalHeuristic title body).recommended_next_action = "draft proposal") ∧
    (riskFlags (title ++ "\n" ++ body) = [] → heuristicScore (title ++ "\n" ++ body) < 2 →
      (scoreSignalHeuristic title body).recommended_next_action = "ignore") := by
  rw [scoreSignalHeuristic_recommended]
  refine ⟨fun hr => ?_, fun hr hs => ?_, fun hr hs => ?_⟩
  · simp [hr]
  · simp [hr, hs]
  · simp [hr, Nat.not_le.2 hs]

/-- Witness for C5: `"need a pdf tool"` scores 3 with no risk flags and is
recommended `"draft proposal"`; `"legal"` scores 0 with a risk flag and is
recommended `"needs clarification"`. -/
theorem C5_recommended_action_witness :
    (scoreSignalHeuristic "need a pdf tool" "").recommended_next_action = "draft proposal" ∧
    (scoreSignalHeuristic "legal" "").recommended_next_action = "needs clarification" :=
  ⟨(C5_recommended_action "need a pdf tool" "").2.1 (by decide) (by decide),
   (C5_recommended_action "legal" "").1 (by decide)⟩

/-- C6 counterexample: the text `"legal"` has heuristic score 0 (≤ 1), yet its
feasibility is `"MED"`, not the `"LOW"` the claim requires for every score ≤ 1
— the risk-flag override to `"MED"` runs after the `LOW` assignment. -/
theorem C6_counterexample :
    heuristicScore "legal" ≤ 1 ∧
    (estimate "legal" (categorize "legal")).feasibility = "MED" ∧
    (estimate "legal" (categorize "legal")).feasibility ≠ "LOW" := by
  refine ⟨by decide, by decide, by decide⟩

/-- C6 (amended): for every signal text,
`estimated_build_time_minutes = base(category) + max(0, score - 2) * 60` with
base/price per the table (doc generator 240/"$600 - $1,500", automation
360/"$900 - $2,500", micro SaaS 480/"$1,200 - $3,500", other 180/"$400 - $900"),
and feasibility is `HIGH` when score ≥ 2 with no risk flags, `MED` whenever a
risk flag is present (this overrides `LOW`), and `LOW` when score ≤ 1 with no
risk flags. -/
theorem C6_estimate_amended (text : String) :
    (categorize text = "Doc generator / template tool" →
      (estimate text (categorize text)).estimated_build_time_minutes
          = 240 + max 0 ((heuristicScore text : Int) - 2) * 60 ∧
      (estimate text (categorize text)).suggested_price_range = "$600 - $1,500") ∧
    (categorize text = "Automation / integration request" →
      (estimate text (categorize text)).estimated_build_time_minutes
          = 360 + max 0 ((heuristicScore text : Int) - 2) * 60 ∧
      (estimate text (categorize text)).suggested_price_range = "$900 - $2,500") ∧
    (categorize text = "Small web app / micro SaaS" →
      (estimate text (categorize text)).estimated_build_time_minutes
          = 480 + max 0 ((heuristicScore text : Int) - 2) * 60 ∧
      (estimate text (categorize text)).suggested_price_range = "$1,200 - $3,500") ∧
    (categorize text = "Not a lead / ignore" →
      (estimate text (categorize text)).estimated_build_time_minutes
          = 180 + max 0 ((heuristicScore text : Int) - 2) * 60 ∧
      (estimate text (categorize text)).suggested_price_range = "$400 - $900") ∧
    (riskFlags text ≠ [] → (estimate text (categorize text)).feasibility = "MED") ∧
    (riskFlags text = [] → 2 ≤ heuristicScore text →
      (estimate text (categorize text)).feasibility = "HIGH") ∧
    (riskFlags text = [] → heuristicScore text ≤ 1 →
      (estimate text (categorize text)).feasibility = "LOW") := by
  refine ⟨fun hc => ?_, fun hc => ?_, fun hc => ?_, fun hc => ?_,
    fun hr => ?_, fun hr hs => ?_, fun hr hs => ?_⟩
  · rw [hc]; simp [estimate]
  · rw [hc]; simp [estimate]
  · rw [hc]; simp [estimate]
  · rw [hc]; simp [estimate]
  · simp [estimate, hr]
  · have h2 : 2 ≤ ((heuristicScore text : Int)) := by exact_mod_cast hs
    have h3 : ¬((heuristicScore text : Int) ≤ 1) := by omega
    simp [estimate, hr, h2, h3]
  · have h1 : ((heuristicScore text : Int)) ≤ 1 := by exact_mod_cast hs
    simp [estimate, hr, h1]

/-- Witness for C6: `"need a pdf tool"` (doc-generator category, score 3, no
risk) gets 300 minutes, the doc-generator price range, and feasibility HIGH. -/
theorem C6_estimate_amended_witness :
    ((estimate "need a pdf tool" (categorize "need a pdf tool")).estimated_build_time_minutes
        = 240 + max 0 ((heuristicScore "need a pdf tool" : Int) - 2) * 60 ∧
      (estimate "need a pdf tool" (categorize "need a pdf tool")).suggested_price_range
        = "$600 - $1,500") ∧
    (estimate "need a pdf tool" (categorize "need a pdf tool")).feasibility = "HIGH" :=
  ⟨(C6_estimate_amended "need a pdf tool").1 (by decide),
   (C6_estimate_amended "need a pdf tool").2.2.2.2.2.1 (by decide) (by decide)⟩

/-- An `UPDATE ... WHERE id = ?` whose id matches no row changes nothing. -/
theorem updateProposalStatus_not_found (rows : List ProposalRow) (pid status : String) (t : Nat)
    (h : rows.find? (fun r => r.id == pid) = none) :
    updateProposalStatus rows pid status t = rows := by
  induction rows with
  | nil => rfl
  | cons r rs ih =>
    cases hc : (r.id == pid) with
    | true => simp [List.find?, hc] at h
    | false =>
      simp only [List.find?, hc] at h
      simp only [updateProposalStatus, List.map_cons, hc, Bool.false_eq_true, if_false]
      exact congrArg _ (ih h)

/-- C1 counterexample: a proposal in status `failed` (resp. `cancelled`) with a
valid lane and `allow_rerun` asserted is rejected with 409, not enqueued. -/
theorem C1_counterexample :
    execute (testDb "failed" none) "p1" "html" true
        = .error ⟨409, "Proposal not approved for execution"⟩ ∧
    execute (testDb "cancelled" none) "p1" "html" true
        = .error ⟨409, "Proposal not approved for execution"⟩ := by
  constructor <;> rfl

/-- C1 (amended): with a valid lane, the kill switch clear and an existing
proposal, `execute` enqueues a fresh `queued` execution exactly when the
status is `approved`, or `executed` with `allow_rerun` asserted; every other
status — in particular `failed` and `cancelled`, even with `allow_rerun` — is
rejected with 409. -/
theorem C1_execute_amended (db : Db) (pid lane : String) (ar : Bool) (row : ProposalRow)
    (hrow : findProposal db pid = some row)
    (hlane : EXECUTOR_LANES.contains lane = true)
    (hblock : db.execution_blocked = false) :
    (row.status = "approved" ∨ (row.status = "executed" ∧ ar = true) →
      ∃ db', execute db pid lane ar
          = .ok ({ status := "queued", execution_id := db.fresh }, db') ∧
        db'.executions = db.executions ++
          [{ id := db.fresh, proposal_id := pid, mission_id := row.mission_id, lane := lane,
             status := "queued", started_at := db.now, finished_at := none,
             approved_by := some "operator", inputs := row.data_json }]) ∧
    (row.status ≠ "approved" → ¬(row.status = "executed" ∧ ar = true) →
      execute db pid lane ar = .error ⟨409, "Proposal not approved for execution"⟩) := by
  unfold execute
  rw [if_neg (not_not_intro hlane)]
  simp only [hrow]
  constructor
  · intro hok
    rw [if_neg (by tauto)]
    simp only [startExecutionTask]
    rw [if_neg (by simp [hblock])]
    exact ⟨_, rfl, rfl⟩
  · intro h1 h2
    rw [if_pos ⟨h1, h2⟩]

/-- Witness for C1 at a concrete database: an `executed` proposal re-run with
`allow_rerun` is enqueued. -/
theorem C1_execute_amended_witness :
    ∃ db', execute (testDb "executed" none) "p1" "html" true
        = .ok ({ status := "queued", execution_id := 0 }, db') ∧
      db'.executions =
        [{ id := 0, proposal_id := "p1", mission_id := some "m1", lane := "html",
           status := "queued", started_at := 1, finished_at := none,
           approved_by := some "operator", inputs := "{}" }] :=
  (C1_execute_amended (testDb "executed" none) "p1" "html" true _ rfl rfl rfl).1
    (Or.inr ⟨rfl, rfl⟩)

/-- C2 counterexample: approving a proposal whose status is `executed`
(outside `{queued, draft}`) is not rejected: it succeeds and rewrites the row's
status to `approved`, recording a `json` artifact. -/
theorem C2_counterexample :
    ∃ resp db', approve (testDb "executed" none) "p1" = .ok (resp, db') ∧
      resp.status = "approved" ∧
      (findProposal db' "p1").map (fun r => r.status) = some "approved" ∧
      db'.artifacts.map (fun a => a.kind) = [some "json"] := by
  refine ⟨_, _, rfl, rfl, rfl, rfl⟩

/-- C2 (amended): `approve` checks only existence — 404 when the proposal id
is unknown, and for every existing proposal, of any status whatsoever, it
succeeds, writes status `approved` and records an inline artifact of kind
`json`. -/
theorem C2_approve_amended (db : Db) (pid : String) :
    (findProposal db pid = none → approve db pid = .error ⟨404, "Proposal not found"⟩) ∧
    (∀ row, findProposal db pid = some row →
      ∃ resp db', approve db pid = .ok (resp, db') ∧ resp.status = "approved" ∧
        db'.proposals = updateProposalStatus db.proposals pid "approved" db.now ∧
        resp.artifact_id = db.fresh ∧
        ∃ a, a ∈ db'.artifacts ∧ a.proposal_id = pid ∧ a.kind = some "json") := by
  constructor
  · intro h
    unfold approve
    rw [h]
  · intro row hrow
    simp only [approve, hrow, startExecutionTask, insertArtifact, recordTelemetry,
      insertExecution]
    by_cases hm : (row.execution_mode.getD "manual" == "auto_after_approval") = true
    · rw [if_pos hm]
      by_cases hb : db.execution_blocked = true
      · rw [if_pos hb]
        exact ⟨_, _, rfl, rfl, rfl, rfl, _,
          List.mem_append_right _ (List.mem_singleton.2 rfl), rfl, rfl⟩
      · rw [if_neg hb]
        exact ⟨_, _, rfl, rfl, rfl, rfl, _,
          List.mem_append_right _ (List.mem_singleton.2 rfl), rfl, rfl⟩
    · rw [if_neg hm]
      exact ⟨_, _, rfl, rfl, rfl, rfl, _,
        List.mem_append_right _ (List.mem_singleton.2 rfl), rfl, rfl⟩

/-- Witness for C2: the `executed` proposal of the one-row test database is
approved. -/
theorem C2_approve_amended_witness :
    ∃ resp db', approve (testDb "executed" none) "p1" = .ok (resp, db') ∧
      resp.status = "approved" ∧
      db'.proposals =
        updateProposalStatus (testDb "executed" none).proposals "p1" "approved"
          (testDb "executed" none).now ∧
      resp.artifact_id = (testDb "executed" none).fresh ∧
      ∃ a, a ∈ db'.artifacts ∧ a.proposal_id = "p1" ∧ a.kind = some "json" :=
  (C2_approve_amended (testDb "executed" none) "p1").2 _ rfl

/-- C3 counterexample: rejecting a nonexistent proposal id returns the plain
success payload `{"status": "cancelled"}` — the handler has no error path, so
no 4xx is produced — while the database is left unchanged. -/
theorem C3_counterexample :
    reject (testDb "queued" none) "missing" = ({ status := "cancelled" }, testDb "queued" none) := by
  rfl

/-- C3 (amended): for a proposal id not present in the proposals table,
`reject` returns the 200 payload `{"status": "cancelled"}` (not a 4xx) and
modifies no table row. -/
theorem C3_reject_amended (db : Db) (pid : String)
    (h : findProposal db pid = none) :
    reject db pid = ({ status := "cancelled" }, db) := by
  unfold reject
  unfold findProposal at h
  rw [updateProposalStatus_not_found db.proposals pid "cancelled" db.now h]

/-- Witness for C3 at a concrete database with no matching proposal. -/
theorem C3_reject_amended_witness :
    reject (testDb "queued" none) "nope" = ({ status := "cancelled" }, testDb "queued" none) :=
  C3_reject_amended (testDb "queued" none) "nope" rfl

/-- Filtering for an id after filtering it away yields nothing. -/
theorem filter_ne_filter_eq_nil (rows : List SignalRow) (x : String) :
    ((rows.filter (fun r => r.id != x)).filter (fun r => r.id == x)) = [] := by
  induction rows with
  | nil => rfl
  | cons r rs ih =>
    by_cases hc : (r.id == x) = true
    · simp only [List.filter_cons, bne, hc, Bool.not_true, Bool.false_eq_true, if_false]
      exact ih
    · rw [Bool.not_eq_true] at hc
      simp only [List.filter_cons, bne, hc, Bool.not_false, if_true, Bool.false_eq_true,
        if_false]
      exact ih

/-- An `INSERT OR REPLACE` leaves exactly the new row under its primary key. -/
theorem insertSignalRows_filter (rows : List SignalRow) (row : SignalRow) (x : String)
    (hx : row.id = x) :
    (insertSignalRows rows row).filter (fun r => r.id == x) = [row] := by
  subst hx
  unfold insertSignalRows
  rw [List.filter_append, filter_ne_filter_eq_nil]
  simp [List.filter]

/-- After `_process_signal` the signal's id is always present in the table. -/
theorem processSignal_any (st : ProcState) (s : Signal) :
    ((processSignal st s).2.signals.any (fun r => r.id == s.id)) = true := by
  by_cases h : st.signals.any (fun r => r.id == s.id) = true
  · unfold processSignal
    rw [if_pos h]
    exact h
  · unfold processSignal
    rw [if_neg h]
    by_cases hd : ((scoreSignalHeuristic s.title s.body_excerpt).recommended_next_action
        = "draft proposal" ∧ st.authority_mode ≠ "scan_only")
    · simp only [if_pos hd, insertSignal, insertSignalRows, insertProcProposal]
      simp [List.any_append]
    · simp only [if_neg hd, insertSignal, insertSignalRows]
      simp [List.any_append]

/-- `_process_signal` on an id that already exists is a complete no-op: no
event, no state change. -/
theorem processSignal_exists_noop (st : ProcState) (s : Signal)
    (h : st.signals.any (fun r => r.id == s.id) = true) :
    processSignal st s = (none, st) := by
  unfold processSignal
  rw [if_pos h]

/-- C7 (confirmed): signal insertion is idempotent by id.  At the store level,
`INSERT OR REPLACE` applied twice leaves exactly one row keyed by the id.
Processing a fresh signal leaves exactly one row with its id, and processing
the same signal a second time is a complete no-op: it returns no event and
leaves the whole state — signals, proposals, telemetry events and
`items_processed` — unchanged. -/
theorem C7_signal_idempotent (st : ProcState) (s : Signal) :
    (∀ rows row, ((insertSignalRows (insertSignalRows rows row) row).filter
        (fun r => r.id == row.id)).length = 1) ∧
    (st.signals.all (fun r => r.id != s.id) = true →
      ((processSignal st s).2.signals.filter (fun r => r.id == s.id)).length = 1) ∧
    processSignal ((processSignal st s).2) s = (none, (processSignal st s).2) := by
  refine ⟨fun rows row => by rw [insertSignalRows_filter _ _ row.id rfl]; rfl, fun hall => ?_,
    processSignal_exists_noop _ s (processSignal_any st s)⟩
  have h : st.signals.any (fun r => r.id == s.id) = false := by
    rw [List.any_eq_false]
    intro x hx
    have hx' := List.all_eq_true.mp hall x hx
    simpa [bne] using hx'
  unfold processSignal
  rw [if_neg (by simp [h])]
  by_cases hd : ((scoreSignalHeuristic s.title s.body_excerpt).recommended_next_action
      = "draft proposal" ∧ st.authority_mode ≠ "scan_only")
  · simp only [if_pos hd, insertSignal, insertProcProposal]
    rw [insertSignalRows_filter _ _ s.id rfl]
    rfl
  · simp only [if_neg hd, insertSignal]
    rw [insertSignalRows_filter _ _ s.id rfl]
    rfl

/-- Witness for C7 at the empty state and a concrete signal. -/
theorem C7_signal_idempotent_witness :
    ((processSignal emptyProcState sampleSignal).2.signals.filter
        (fun r => r.id == sampleSignal.id)).length = 1 :=
  (C7_signal_idempotent emptyProcState sampleSignal).2.1 (by decide)

/-- One status update preserves the `finished_at` invariant, provided it does
not write a non-terminal status over a terminal one. -/
theorem finishedInv_update (row : ExecStatusRow) (status : String) (t : Nat)
    (hrow : finishedInv row)
    (hg : EXEC_TERMINAL.contains row.status = true → EXEC_TERMINAL.contains status = true) :
    finishedInv (updateExecutionStatus row status t) := by
  unfold finishedInv updateExecutionStatus at *
  by_cases hs : EXEC_TERMINAL.contains status = true
  · rw [if_pos hs, hs]
    rfl
  · have hr : EXEC_TERMINAL.contains row.status = false := by
      cases hcontains : EXEC_TERMINAL.contains row.status
      · rfl
      · exact absurd (hg hcontains) hs
    have hsf : EXEC_TERMINAL.contains status = false := by
      rwa [Bool.not_eq_true] at hs
    rw [if_neg hs, hsf]
    rw [hr] at hrow
    exact hrow

/-- The invariant holds after any guarded update sequence. -/
theorem finishedInv_applyExecUpdates (ops : List (String × Nat)) (row : ExecStatusRow)
    (hrow : finishedInv row) (hops : execGuardOk row ops = true) :
    finishedInv (applyExecUpdates row ops) := by
  induction ops generalizing row with
  | nil => exact hrow
  | cons op rest ih =>
    simp only [execGuardOk, Bool.and_eq_true] at hops
    refine ih _ (finishedInv_update row op.1 op.2 hrow fun hterm => ?_) hops.2
    have h1 := hops.1
    rw [hterm] at h1
    simpa using h1

/-- C8 (confirmed): a newly inserted execution (status `queued`) has no
`finished_at`; every update to a terminal status stamps `finished_at`; and for
every row produced from insertion by a sequence of status updates as the
backend performs them (never writing a non-terminal status over a terminal
one), `finished_at` is set if and only if the status is in
`{succeeded, failed, cancelled}`. -/
theorem C8_finished_at_iff (ops : List (String × Nat))
    (h : execGuardOk (insertExecutionStatus "queued") ops = true) :
    (insertExecutionStatus "queued").finished_at = none ∧
    (∀ row status t, EXEC_TERMINAL.contains status = true →
      (updateExecutionStatus row status t).finished_at = some t) ∧
    finishedInv (applyExecUpdates (insertExecutionStatus "queued") ops) := by
  refine ⟨rfl, fun row status t hs => ?_, ?_⟩
  · simp only [updateExecutionStatus]
    rw [if_pos hs]
  · exact finishedInv_applyExecUpdates ops _ rfl h

/-- Witness for C8 at the concrete update sequence queued → running →
succeeded. -/
theorem C8_finished_at_iff_witness :
    (insertExecutionStatus "queued").finished_at = none ∧
    (∀ row status t, EXEC_TERMINAL.contains status = true →
      (updateExecutionStatus row status t).finished_at = some t) ∧
    finishedInv
      (applyExecUpdates (insertExecutionStatus "queued") [("running", 1), ("succeeded", 2)]) :=
  C8_finished_at_iff [("running", 1), ("succeeded", 2)] (by decide)

/-- The first component of the token loop accumulates the sum of the `tokens`
fields. -/
theorem tokenFold_fst (cfg : List (String × ℚ)) (rows : List TelemetryEventRow) :
    ∀ init : Int × ℚ × List (String × Int),
      (rows.foldl (tokenStep cfg) init).1 = init.1 + (rows.map (fun r => r.tokens)).sum := by
  induction rows with
  | nil => intro init; simp
  | cons r rs ih =>
    intro init
    simp only [List.foldl_cons, List.map_cons, List.sum_cons]
    rw [ih]
    simp only [tokenStep]
    ring

/-- C9 (confirmed): `total_tokens` is the sum of the `tokens` payload field
over the `tokens_used` events, and each per-unit cost equals
`total_cost_usd / count` with value 0 when the respective count is 0 (no
division error: the code guards each division with `if count else 0`). -/
theorem C9_telemetry_summary (events : List TelemetryEventRow) (cfg : List (String × ℚ)) :
    (telemetrySummary events cfg).total_tokens =
      ((events.filter (fun e => e.type == "tokens_used")).map (fun e => e.tokens)).sum ∧
    ((telemetrySummary events cfg).signal_count = 0 →
      (telemetrySummary events cfg).cost_per_signal = 0) ∧
    (0 < (telemetrySummary events cfg).signal_count →
      ((telemetrySummary events cfg).signal_count : ℚ) *
        (telemetrySummary events cfg).cost_per_signal
          = (telemetrySummary events cfg).total_cost_usd) ∧
    ((telemetrySummary events cfg).proposal_count = 0 →
      (telemetrySummary events cfg).cost_per_proposal = 0) ∧
    (0 < (telemetrySummary events cfg).proposal_count →
      ((telemetrySummary events cfg).proposal_count : ℚ) *
        (telemetrySummary events cfg).cost_per_proposal
          = (telemetrySummary events cfg).total_cost_usd) ∧
    ((telemetrySummary events cfg).execution_count = 0 →
      (telemetrySummary events cfg).cost_per_execution = 0) ∧
    (0 < (telemetrySummary events cfg).execution_count →
      ((telemetrySummary events cfg).execution_count : ℚ) *
        (telemetrySummary events cfg).cost_per_execution
          = (telemetrySummary events cfg).total_cost_usd) := by
  refine ⟨?_, ?_, ?_, ?_, ?_, ?_, ?_⟩ <;>
    simp only [telemetrySummary, tokenFold]
  · simpa using tokenFold_fst cfg (events.filter (fun e => e.type == "tokens_used")) (0, 0, [])
  · intro h; rw [if_pos h]
  · intro h
    rw [if_neg (Nat.pos_iff_ne_zero.mp h)]
    rw [mul_div_cancel₀]
    exact Nat.cast_ne_zero.mpr (Nat.pos_iff_ne_zero.mp h)
  · intro h; rw [if_pos h]
  · intro h
    rw [if_neg (Nat.pos_iff_ne_zero.mp h)]
    rw [mul_div_cancel₀]
    exact Nat.cast_ne_zero.mpr (Nat.pos_iff_ne_zero.mp h)
  · intro h; rw [if_pos h]
  · intro h
    rw [if_neg (Nat.pos_iff_ne_zero.mp h)]
    rw [mul_div_cancel₀]
    exact Nat.cast_ne_zero.mpr (Nat.pos_iff_ne_zero.mp h)

/-- Witness for C9 on the concrete event log `sampleEvents`. -/
theorem C9_telemetry_summary_witness :
    ((telemetrySummary sampleEvents sampleCfg).signal_count : ℚ) *
      (telemetrySummary sampleEvents sampleCfg).cost_per_signal
        = (telemetrySummary sampleEvents sampleCfg).total_cost_usd :=
  (C9_telemetry_summary sampleEvents sampleCfg).2.2.1 (by decide)

/-- A sublist inherits `all`. -/
theorem all_of_sublist (p : Char → Bool) {l₁ l₂ : List Char} (hs : l₁.Sublist l₂)
    (h : l₂.all p = true) : l₁.all p = true := by
  rw [List.all_eq_true] at h ⊢
  intro x hx
  exact h x (hs.subset hx)

/-- Every chunk of `_split` inherits `all` from the text. -/
theorem splitChunksGo_all (p : Char → Bool) :
    ∀ (fuel : Nat) (l : List Char), l.all p = true →
      ∀ ch ∈ splitChunksGo fuel l, ch.all p = true := by
  intro fuel
  induction fuel with
  | zero => intro l _ ch hch; simp [splitChunksGo] at hch
  | succ n ih =>
    intro l hl ch hch
    match l with
    | [] => simp [splitChunksGo] at hch
    | c :: cs =>
      simp only [splitChunksGo, List.mem_cons] at hch
      rcases hch with h | h
      · subst h
        exact all_of_sublist p (List.takeWhile_sublist _) hl
      · exact ih _ (all_of_sublist p (List.dropWhile_sublist _) hl) ch h

/-- The greedy line fill distributes chunks without inventing characters. -/
theorem fillLine_all (p : Char → Bool) (width : Nat) :
    ∀ (chunks : List (List Char)) (curLen : Nat),
      (∀ ch ∈ chunks, ch.all p = true) →
      (∀ ch ∈ (fillLine width curLen chunks).1, ch.all p = true) ∧
      (∀ ch ∈ (fillLine width curLen chunks).2.2, ch.all p = true) := by
  intro chunks
  induction chunks with
  | nil => intro curLen h; simp [fillLine]
  | cons ch rest ih =>
    intro curLen h
    have hch := h ch (List.mem_cons_self ch rest)
    have hrest : ∀ x ∈ rest, x.all p = true := fun x hx => h x (List.mem_cons_of_mem _ hx)
    simp only [fillLine]
    by_cases hc : curLen + ch.length ≤ width
    · rw [if_pos hc]
      have hr := ih (curLen + ch.length) hrest
      constructor
      · intro x hx
        rcases List.mem_cons.mp hx with rfl | hx
        · exact hch
        · exact hr.1 x hx
      · exact hr.2
    · rw [if_neg hc]
      exact ⟨fun x hx => absurd hx (List.not_mem_nil x), h⟩

/-- Dropping a leading whitespace chunk preserves `all`. -/
theorem dropLeadingWs_all (p : Char → Bool) (hasLines : Bool) (chunks : List (List Char))
    (h : ∀ ch ∈ chunks, ch.all p = true) :
    ∀ ch ∈ dropLeadingWs hasLines chunks, ch.all p = true := by
  cases chunks with
  | nil => exact h
  | cons c rest =>
    simp only [dropLeadingWs]
    by_cases hd : (hasLines && isSpaceRun c) = true
    · rw [if_pos hd]
      exact fun x hx => h x (List.mem_cons_of_mem _ hx)
    · rw [if_neg hd]
      exact h

/-- Breaking a long word only splits an existing chunk. -/
theorem handleLongWord_all (p : Char → Bool) (width curLen : Nat)
    (curLine rem : List (List Char))
    (h1 : ∀ ch ∈ curLine, ch.all p = true) (h2 : ∀ ch ∈ rem, ch.all p = true) :
    (∀ ch ∈ (handleLongWord width curLen curLine rem).1, ch.all p = true) ∧
    (∀ ch ∈ (handleLongWord width curLen curLine rem).2, ch.all p = true) := by
  cases rem with
  | nil =>
    simp only [handleLongWord]
    exact ⟨h1, fun x hx => absurd hx (List.not_mem_nil x)⟩
  | cons ch rest =>
    have hch := h2 ch (List.mem_cons_self ch rest)
    have hrest : ∀ x ∈ rest, x.all p = true := fun x hx => h2 x (List.mem_cons_of_mem _ hx)
    simp only [handleLongWord]
    by_cases hl : width < ch.length
    · rw [if_pos hl]
      refine ⟨fun x hx => ?_, fun x hx => ?_⟩
      · rcases List.mem_append.mp hx with hx | hx
        · exact h1 x hx
        · rcases List.mem_singleton.mp hx with rfl
          exact all_of_sublist p (List.take_sublist _ _) hch
      · rcases List.mem_cons.mp hx with rfl | hx
        · exact all_of_sublist p (List.drop_sublist _ _) hch
        · exact hrest x hx
    · rw [if_neg hl]
      exact ⟨h1, h2⟩

/-- Dropping a trailing whitespace chunk preserves `all`. -/
theorem dropTrailingWs_all (p : Char → Bool) (curLine : List (List Char))
    (h : ∀ ch ∈ curLine, ch.all p = true) :
    ∀ ch ∈ dropTrailingWs curLine, ch.all p = true := by
  unfold dropTrailingWs
  split
  · split
    · exact fun x hx => h x ((List.dropLast_sublist _).subset hx)
    · exact h
  · exact h

/-- Flattening chunk lists preserves `all`. -/
theorem flatten_all (p : Char → Bool) (chunks : List (List Char))
    (h : ∀ ch ∈ chunks, ch.all p = true) : chunks.flatten.all p = true := by
  rw [List.all_eq_true]
  intro x hx
  rcases List.mem_flatten.mp hx with ⟨ch, hch, hxch⟩
  exact List.all_eq_true.mp (h ch hch) x hxch

/-- Every character of every wrapped line comes from the chunks (or is kept
verbatim), so `all` is preserved by the wrap loop. -/
theorem wrapGo_all (p : Char → Bool) (width : Nat) :
    ∀ (fuel : Nat) (hasLines : Bool) (chunks : List (List Char)),
      (∀ ch ∈ chunks, ch.all p = true) →
      ∀ line ∈ wrapGo width fuel hasLines chunks, line.all p = true := by
  intro fuel
  induction fuel with
  | zero => intro hl c _ line h; simp [wrapGo] at h
  | succ n ih =>
    intro hasLines chunks hall line hline
    match chunks with
    | [] => simp [wrapGo] at hline
    | c :: rest =>
      simp only [wrapGo] at hline
      have h1 := dropLeadingWs_all p hasLines (c :: rest) hall
      have h2 := fillLine_all p width (dropLeadingWs hasLines (c :: rest)) 0 h1
      have h3 := handleLongWord_all p width
        (fillLine width 0 (dropLeadingWs hasLines (c :: rest))).2.1
        (fillLine width 0 (dropLeadingWs hasLines (c :: rest))).1
        (fillLine width 0 (dropLeadingWs hasLines (c :: rest))).2.2 h2.1 h2.2
      have h4 := dropTrailingWs_all p _ h3.1
      by_cases he : (dropTrailingWs (handleLongWord width
          (fillLine width 0 (dropLeadingWs hasLines (c :: rest))).2.1
          (fillLine width 0 (dropLeadingWs hasLines (c :: rest))).1
          (fillLine width 0 (dropLeadingWs hasLines (c :: rest))).2.2).1).isEmpty = true
      · rw [if_pos he] at hline
        exact ih hasLines _ h3.2 line hline
      · rw [if_neg he] at hline
        rcases List.mem_cons.mp hline with rfl | hline
        · exact flatten_all p _ h4
        · exact ih true _ h3.2 line hline

/-- A run of spaces satisfies a predicate holding of the space. -/
theorem replicate_space_all (p : Char → Bool) (hsp : p ' ' = true) (n : Nat) :
    (List.replicate n ' ').all p = true := by
  rw [List.all_eq_true]
  intro x hx
  rw [(List.eq_of_mem_replicate hx)]
  exact hsp

/-- Tab expansion only inserts spaces. -/
theorem expandTabsGo_all (p : Char → Bool) (hsp : p ' ' = true) :
    ∀ (l : List Char) (col : Nat), l.all p = true → (expandTabsGo col l).all p = true := by
  intro l
  induction l with
  | nil => intro col _; rfl
  | cons c cs ih =>
    intro col h
    rw [List.all_cons, Bool.and_eq_true] at h
    simp only [expandTabsGo]
    by_cases ht : c = '\t'
    · rw [if_pos ht, List.all_append, Bool.and_eq_true]
      exact ⟨replicate_space_all p hsp _, ih _ h.2⟩
    · rw [if_neg ht]
      by_cases hn : c = '\n' ∨ c = '\r'
      · rw [if_pos hn, List.all_cons, Bool.and_eq_true]
        exact ⟨h.1, ih 0 h.2⟩
      · rw [if_neg hn, List.all_cons, Bool.and_eq_true]
        exact ⟨h.1, ih _ h.2⟩

/-- Whitespace translation maps Latin-1 characters to Latin-1 characters. -/
theorem translateWs_le (c : Char) (h : decide (c.toNat ≤ 255) = true) :
    decide ((translateWs c).toNat ≤ 255) = true := by
  unfold translateWs
  split_ifs with h1
  · decide
  · exact h

/-- Whitespace munging preserves being all-Latin-1. -/
theorem mungeWhitespace_all (l : List Char)
    (h : l.all (fun c => decide (c.toNat ≤ 255)) = true) :
    (mungeWhitespace l).all (fun c => decide (c.toNat ≤ 255)) = true := by
  unfold mungeWhitespace
  rw [List.all_map]
  have he := expandTabsGo_all (fun c => decide (c.toNat ≤ 255)) (by decide) l 0 h
  rw [List.all_eq_true] at he ⊢
  intro x hx
  exact translateWs_le x (he x hx)

/-- Decimal digits are ASCII. -/
theorem decDigit_le (n : Nat) : decide ((decDigit n).toNat ≤ 255) = true := by
  unfold decDigit
  split_ifs <;> decide

/-- The decimal rendering produces only ASCII digits. -/
theorem natToDecGo_all :
    ∀ (fuel n : Nat) (acc : List Char),
      acc.all (fun c => decide (c.toNat ≤ 255)) = true →
      (natToDecGo fuel n acc).all (fun c => decide (c.toNat ≤ 255)) = true := by
  intro fuel
  induction fuel with
  | zero => intro n acc h; exact h
  | succ m ih =>
    intro n acc h
    have hd : ((decDigit (n % 10)) :: acc).all (fun c => decide (c.toNat ≤ 255)) = true := by
      rw [List.all_cons, Bool.and_eq_true]
      exact ⟨decDigit_le _, h⟩
    simp only [natToDecGo]
    by_cases hn : n < 10
    · rw [if_pos hn]
      exact hd
    · rw [if_neg hn]
      exact ih _ _ hd

/-- `str(n)` is all-ASCII. -/
theorem natToDec_all (n : Nat) :
    (natToDec n).all (fun c => decide (c.toNat ≤ 255)) = true :=
  natToDecGo_all _ _ _ rfl

/-- Zero padding stays ASCII. -/
theorem padTo10_all (digits : List Char)
    (h : digits.all (fun c => decide (c.toNat ≤ 255)) = true) :
    (padTo10 digits).all (fun c => decide (c.toNat ≤ 255)) = true := by
  unfold padTo10
  rw [List.all_append, Bool.and_eq_true]
  refine ⟨?_, h⟩
  rw [List.all_eq_true]
  intro x hx
  rw [(List.eq_of_mem_replicate hx)]
  decide

/-- Joining with newlines preserves `all` of a predicate holding of newline. -/
theorem joinLines_all (p : Char → Bool) (hnl : p '\n' = true) :
    ∀ (lines : List (List Char)), (∀ l ∈ lines, l.all p = true) →
      (joinLines lines).all p = true := by
  intro lines
  induction lines with
  | nil => intro _; rfl
  | cons l ls ih =>
    intro h
    cases ls with
    | nil => exact h l (List.mem_singleton.mpr rfl)
    | cons l2 ls2 =>
      simp only [joinLines]
      rw [List.all_append, Bool.and_eq_true]
      refine ⟨h l (List.mem_cons_self _ _), ?_⟩
      rw [List.all_cons, Bool.and_eq_true]
      exact ⟨hnl, ih (fun x hx => h x (List.mem_cons_of_mem _ hx))⟩

/-- Every rendered content line is Latin-1 when the wrapped lines are. -/
theorem contentLines_all :
    ∀ (lines : List (List Char)) (y : Nat),
      (∀ l ∈ lines, l.all (fun c => decide (c.toNat ≤ 255)) = true) →
      ∀ cl ∈ contentLines y lines, cl.all (fun c => decide (c.toNat ≤ 255)) = true := by
  intro lines
  induction lines with
  | nil => intro y _ cl hcl; simp [contentLines] at hcl
  | cons l rest ih =>
    intro y h cl hcl
    have hline : ("1 0 0 1 50 ".toList ++ natToDec y ++ " Tm (".toList ++ l ++
        ") Tj".toList).all (fun c => decide (c.toNat ≤ 255)) = true := by
      simp only [List.all_append, Bool.and_eq_true]
      exact ⟨⟨⟨⟨by decide, natToDec_all y⟩, by decide⟩,
        h l (List.mem_cons_self _ _)⟩, by decide⟩
    simp only [contentLines] at hcl
    by_cases hy : y - 14 < 50
    · rw [if_pos hy] at hcl
      rw [List.mem_singleton.mp hcl]
      exact hline
    · rw [if_neg hy] at hcl
      rcases List.mem_cons.mp hcl with rfl | hcl
      · exact hline
      · exact ih (y - 14) (fun x hx => h x (List.mem_cons_of_mem _ hx)) cl hcl

/-- Serialising the objects preserves being all-Latin-1. -/
theorem buildObjects_all :
    ∀ (objs : List (List Char)) (pdf : List Char),
      pdf.all (fun c => decide (c.toNat ≤ 255)) = true →
      (∀ o ∈ objs, o.all (fun c => decide (c.toNat ≤ 255)) = true) →
      (buildObjects pdf objs).1.all (fun c => decide (c.toNat ≤ 255)) = true := by
  intro objs
  induction objs with
  | nil => intro pdf h _; exact h
  | cons o rest ih =>
    intro pdf h hobjs
    simp only [buildObjects]
    refine ih _ ?_ (fun x hx => hobjs x (List.mem_cons_of_mem _ hx))
    simp only [List.all_append, Bool.and_eq_true]
    exact ⟨⟨h, hobjs o (List.mem_cons_self _ _)⟩, by decide⟩

/-- Object serialisation only appends to the initial header. -/
theorem buildObjects_prefix :
    ∀ (objs : List (List Char)) (pdf : List Char),
      ∃ t, (buildObjects pdf objs).1 = pdf ++ t := by
  intro objs
  induction objs with
  | nil => intro pdf; exact ⟨[], by simp [buildObjects]⟩
  | cons o rest ih =>
    intro pdf
    obtain ⟨t, ht⟩ := ih (pdf ++ o ++ ['\n'])
    refine ⟨o ++ '\n' :: t, ?_⟩
    simp only [buildObjects, ht]
    simp [List.append_assoc]

/-- All wrapped lines of an all-Latin-1 text are all-Latin-1. -/
theorem textwrapWrap_all (text : List Char)
    (h : text.all (fun c => decide (c.toNat ≤ 255)) = true) :
    ∀ l ∈ textwrapWrap text, l.all (fun c => decide (c.toNat ≤ 255)) = true := by
  unfold textwrapWrap splitChunks
  intro l hl
  exact wrapGo_all (fun c => decide (c.toNat ≤ 255)) 80 _ false _
    (splitChunksGo_all _ _ _ (mungeWhitespace_all text h)) l hl

/-- The whole PDF string is Latin-1 encodable when the input text is. -/
theorem simplePdfChars_all (text : List Char)
    (h : text.all (fun c => decide (c.toNat ≤ 255)) = true) :
    (simplePdfChars text).all (fun c => decide (c.toNat ≤ 255)) = true := by
  have hlines := textwrapWrap_all text h
  have hcl := contentLines_all (textwrapWrap text) 770 hlines
  have hstream := joinLines_all (fun c => decide (c.toNat ≤ 255)) (by decide) _ hcl
  unfold simplePdfChars
  have hobjs : ∀ o ∈
      (["1 0 obj << /Type /Catalog /Pages 2 0 R >> endobj".toList,
        "2 0 obj << /Type /Pages /Kids [3 0 R] /Count 1 >> endobj".toList,
        ("3 0 obj << /Type /Page /Parent 2 0 R /MediaBox [0 0 612 792] " ++
         "/Contents 4 0 R /Resources << /Font << /F1 5 0 R >> >> >> endobj").toList,
        "4 0 obj << /Length ".toList ++ natToDec ("BT\n/F1 12 Tf\n".toList ++
            joinLines (contentLines 770 (textwrapWrap text)) ++ "\nET".toList).length ++
          " >> stream\n".toList ++ ("BT\n/F1 12 Tf\n".toList ++
            joinLines (contentLines 770 (textwrapWrap text)) ++ "\nET".toList) ++
          "\nendstream endobj".toList,
        "5 0 obj << /Type /Font /Subtype /Type1 /BaseFont /Helvetica >> endobj".toList] :
        List (List Char)),
      o.all (fun c => decide (c.toNat ≤ 255)) = true := by
    intro o ho
    simp only [List.mem_cons, List.not_mem_nil, or_false] at ho
    rcases ho with rfl | rfl | rfl | rfl | rfl
    · decide
    · decide
    · decide
    · simp only [List.all_append, Bool.and_eq_true]
      exact ⟨⟨⟨⟨by decide, natToDec_all _⟩, by decide⟩, ⟨by decide, hstream⟩, by decide⟩,
        by decide⟩
    · decide
  have hbo := buildObjects_all _ ("%PDF-1.4\n".toList) (by decide) hobjs
  simp only [List.all_append, Bool.and_eq_true]
  refine ⟨⟨⟨⟨⟨hbo, by decide⟩, ?_⟩, by decide⟩, natToDec_all _⟩, by decide⟩
  apply flatten_all
  intro x hx
  rcases List.mem_map.mp hx with ⟨pos, _, rfl⟩
  rw [List.all_append, Bool.and_eq_true]
  exact ⟨padTo10_all _ (natToDec_all pos), by decide⟩

/-- Appending a tail after object serialisation keeps the header a prefix. -/
theorem buildObjects_append_prefix (objs : List (List Char)) (pdf rest : List Char) :
    ∃ t, (buildObjects pdf objs).1 ++ rest = pdf ++ t := by
  obtain ⟨t, ht⟩ := buildObjects_prefix objs pdf
  exact ⟨t ++ rest, by rw [ht, List.append_assoc]⟩

/-- The PDF string starts with the header written first. -/
theorem simplePdfChars_prefix (text : List Char) :
    ∃ t, simplePdfChars text = "%PDF-1.4\n".toList ++ t := by
  simp only [simplePdfChars, List.append_assoc]
  exact buildObjects_append_prefix _ _ _

/-- The PDF string ends with the trailer's final characters. -/
theorem simplePdfChars_suffix (text : List Char) :
    ∃ w, simplePdfChars text = w ++ "\n%%EOF".toList := by
  simp only [simplePdfChars]
  exact ⟨_, rfl⟩

set_option maxRecDepth 10000 in
/-- C10 counterexample: the one-character text U+2028 (LINE SEPARATOR) is not
Latin-1 encodable, yet `_simple_pdf_bytes` returns without raising — the
wrapper drops the strip-whitespace-only chunk (`drop_whitespace`), so the
character never reaches the Latin-1 encode.  (Characters beyond the 52
rendered lines are likewise never encoded.)  This refutes the claim's
"exactly when every character of text is Latin-1 encodable". -/
theorem C10_counterexample :
    (simplePdfBytes ['\u2028']).isSome = true ∧
    (['\u2028'].all (fun c => c.toNat ≤ 255)) = false := by
  constructor
  · decide
  · decide

set_option maxRecDepth 10000 in
/-- C10 (amended): if every character of the text is Latin-1 encodable the
function returns without raising; whenever it returns, the byte string begins
with `%PDF-1.4` and ends with `%%EOF`; and some input containing a character
outside Latin-1 (the euro sign) raises, so the pdf and doc lanes fail on such
proposal texts.  The converse of the first part is false: characters the
wrapper drops or truncates away (see the counterexample) are never encoded. -/
theorem C10_pdf_amended :
    (∀ text : List Char, text.all (fun c => c.toNat ≤ 255) = true →
      (simplePdfBytes text).isSome = true) ∧
    (∀ (text : List Char) (bs : List Nat), simplePdfBytes text = some bs →
      "%PDF-1.4".toList.map (fun c => c.toNat) <+: bs ∧
      "%%EOF".toList.map (fun c => c.toNat) <:+ bs) ∧
    simplePdfBytes ['€'] = none := by
  refine ⟨fun text h => ?_, fun text bs h => ?_, by decide⟩
  · unfold simplePdfBytes latin1Encode
    rw [if_pos (simplePdfChars_all text h)]
    rfl
  · unfold simplePdfBytes latin1Encode at h
    by_cases hc : (simplePdfChars text).all (fun c => decide (c.toNat ≤ 255)) = true
    · rw [if_pos hc] at h
      have hbs : bs = (simplePdfChars text).map (fun c => c.toNat) :=
        (Option.some.inj h).symm
      subst hbs
      constructor
      · obtain ⟨t, ht⟩ := simplePdfChars_prefix text
        have hp : ("%PDF-1.4".toList : List Char) <+: simplePdfChars text := by
          rw [ht, (by decide : ("%PDF-1.4\n".toList : List Char)
            = "%PDF-1.4".toList ++ ['\n']), List.append_assoc]
          exact List.prefix_append _ _
        exact hp.map _
      · obtain ⟨w, hw⟩ := simplePdfChars_suffix text
        have hs : ("%%EOF".toList : List Char) <:+ simplePdfChars text := by
          rw [hw]
          exact List.IsSuffix.trans (by decide) (List.suffix_append _ _)
        exact hs.map _
    · rw [if_neg hc] at h
      cases h

set_option maxRecDepth 10000 in
/-- Witness for C10 at the concrete all-ASCII text `"hello"`. -/
theorem C10_pdf_amended_witness :
    (simplePdfBytes "hello".toList).isSome = true :=
  C10_pdf_amended.1 "hello".toList (by decide)

end PulZ
